import Mathlib

/-!
Shallow embedding of the statistics aggregation engine found in
packages/plugin-status/server/stats.ts.

Modelling conventions:
JavaScript objects used as insertion-ordered string-keyed maps become
association lists; integer counters become Nat; wall-clock millisecond
timestamps become Int (JavaScript date subtraction may be negative); the
numeric values flowing through the averaging code become Rat. The SQL
strings built by the source are represented structurally: each emitted
statement is a constructor carrying exactly the pieces the source
interpolates into the string (table, bucket key, per-field payloads).
-/

/-- Lookup on a JavaScript object modelled as an association list: the value
of the first entry carrying the key, none when absent (undefined). -/
def alookup {κ α : Type} [DecidableEq κ] : List (κ × α) → κ → Option α
  | [], _ => none
  | p :: rest, k => if p.1 = k then some p.2 else alookup rest k

/-- Assignment on a JavaScript object modelled as an association list:
overwrite the first entry carrying the key, or append a fresh entry at the
end (JavaScript objects keep insertion order). -/
def aset {κ α : Type} [DecidableEq κ] : List (κ × α) → κ → α → List (κ × α)
  | [], k, v => [(k, v)]
  | p :: rest, k, v => if p.1 = k then (k, v) :: rest else p :: aset rest k v

/-- Nested counter record: the value type of a Recorded accumulator field
(StatRecord in the source, a string-to-number object). -/
abbrev RecordMap := List (String × Nat)

/-- Structured payload of a Numerical per-field additive update, line 118:
field name and delta. -/
abbrev NumOp := String × Nat

/-- Structured payload of a Recorded per-field merge update, lines 98 to 100:
field name and the pending nested map whose entries are merged per key. -/
abbrev RecOp := String × RecordMap

/-- Configuration of an accumulator, lines 45 to 49. The create serializer is
not carried separately: the insert statement below carries the full data
record, which is what create serializes value by value. The update function
returns none exactly where the source returns undefined. -/
structure StatConfig (V U : Type) where
  setup : V
  update : String → V → Option U

/-- One emitted persistence statement of an accumulator flush, structural
form of the SQL strings built at lines 75 and 78 to 81. An updateRow is the
merge-UPDATE branch; an insertRow is the INSERT with its full serialized
data record and its ON DUPLICATE KEY UPDATE merge clause. -/
inductive Upsert (V U : Type) where
  | updateRow (table : String) (time : String) (updates : List U)
  | insertRow (table : String) (time : String) (data : List (String × V)) (updates : List U)
deriving DecidableEq

/-- Bucket key carried by a statement (the interpolated date argument). -/
def Upsert.time {V U : Type} : Upsert V U → String
  | .updateRow _ t _ => t
  | .insertRow _ t _ _ => t

/-- Whether a statement is the INSERT branch. -/
def Upsert.isInsert {V U : Type} : Upsert V U → Bool
  | .updateRow .. => false
  | .insertRow .. => true

/-- Full data record serialized by an insert, none for a merge-UPDATE. -/
def Upsert.rowData {V U : Type} : Upsert V U → Option (List (String × V))
  | .updateRow .. => none
  | .insertRow _ _ d _ => some d

/-- Per-field update clauses carried by a statement. -/
def Upsert.ops {V U : Type} : Upsert V U → List U
  | .updateRow _ _ u => u
  | .insertRow _ _ _ u => u

/-- State of one accumulator instance, lines 51 to 57: the per-field data
record and the last bucket key an emitting flush ran under (the private key
field, initially null). -/
structure Stat (V U : Type) where
  table : String
  fields : List String
  config : StatConfig V U
  data : List (String × V)
  key : Option String

/-- Data record holding the setup value for every declared field: the state
the clear method (lines 59 to 63) resets the data to. -/
def Stat.clearData {V U : Type} (s : Stat V U) : List (String × V) :=
  s.fields.map fun f => (f, s.config.setup)

/-- Constructor, lines 55 to 57: remembers table, fields and config, runs
clear, and starts with a null key. -/
def Stat.make {V U : Type} (table : String) (fields : List String)
    (config : StatConfig V U) : Stat V U :=
  { table := table, fields := fields, config := config
    data := fields.map fun f => (f, config.setup), key := none }

/-- Flush, lines 65 to 84. Collects the non-empty per-field update clauses;
with none it returns unchanged emitting nothing. Otherwise it emits a
merge-UPDATE when the date equals the remembered key, else remembers the
date and emits an INSERT carrying the full data record plus the update
clauses, and in both emitting branches clears the data. -/
def Stat.update {V U : Type} (s : Stat V U) (date : String) :
    Stat V U × List (Upsert V U) :=
  let updates := s.data.filterMap fun p => s.config.update p.1 p.2
  if updates.isEmpty then (s, [])
  else if s.key = some date then
    ({ s with data := s.clearData }, [Upsert.updateRow s.table date updates])
  else
    ({ s with key := some date, data := s.clearData },
     [Upsert.insertRow s.table date s.data updates])

/-- Config of a Recorded accumulator, lines 90 to 102: setup is the empty
record, and the per-field update clause exists exactly when the pending
record has entries, carrying the field name and the pending record (the
source renders each entry as a JSON_SET path with an IFNULL plus delta). -/
def recordedConfig : StatConfig RecordMap RecOp :=
  { setup := []
    update := fun name value => if value = [] then none else some (name, value) }

/-- Config of a Numerical accumulator, lines 111 to 121: setup is zero, and
the per-field update clause exists exactly when the counter is non-zero,
carrying the field name and the delta. -/
def numericalConfig : StatConfig Nat NumOp :=
  { setup := 0
    update := fun key value => if value = 0 then none else some (key, value) }

/-- Recorded add, lines 105 to 108: bump the nested counter of the given key
inside the given field by one (missing nested key counts as zero). -/
def Stat.add (s : Stat RecordMap RecOp) (field : String) (key : String) :
    Stat RecordMap RecOp :=
  { s with data := s.data.map fun p =>
      if p.1 = field then (p.1, aset p.2 key (((alookup p.2 key).getD 0) + 1)) else p }

/-- Direct increment of a Numerical field, as at lines 298 and 362 to 364
where call sites do data field plus one in place. -/
def Stat.inc (s : Stat Nat NumOp) (field : String) : Stat Nat NumOp :=
  { s with data := s.data.map fun p => if p.1 = field then (p.1, p.2 + 1) else p }

/-- N repeated increments of one Numerical field. -/
def Stat.incN (s : Stat Nat NumOp) (field : String) : Nat → Stat Nat NumOp
  | 0 => s
  | n + 1 => (s.incN field n).inc field

/-- The daily accumulator instance, line 125. -/
def dailyInit : Stat RecordMap RecOp :=
  Stat.make "stats_daily" ["command", "dialogue", "botSend", "botReceive", "group"]
    recordedConfig

/-- The hourly accumulator instance, line 126. -/
def hourlyInit : Stat Nat NumOp :=
  Stat.make "stats_hourly" ["total", "group", "private", "command", "dialogue"]
    numericalConfig

/-- The longterm accumulator instance, line 127. -/
def longtermInit : Stat Nat NumOp :=
  Stat.make "stats_longterm" ["message"] numericalConfig

/-- Effect of the JSON_SET merge clause emitted at lines 98 to 100 on the
stored nested map: for each pending entry, the stored counter of its key
becomes IFNULL of the stored value, zero when absent, plus the delta; stored
keys without a pending entry are untouched. -/
def mergeRecord (stored pending : RecordMap) : RecordMap :=
  pending.foldl (fun acc p => aset acc p.1 (((alookup acc p.1).getD 0) + p.2)) stored

/-- Effect of the JSON_SET merge emitted for the channel activity column at
lines 150 to 154 on a stored day-keyed activity map: the counter of the day
number becomes IFNULL of the stored value, zero when absent, plus the delta. -/
def applyActivity (act : List (Nat × Nat)) (day delta : Nat) : List (Nat × Nat) :=
  aset act day (((alookup act day).getD 0) + delta)

/-- The readings the scheduler takes from the wall clock: the millisecond
timestamp (unary plus on a Date), getHours, Time dot getDateNumber, and
toLocaleDateString with the zh-CN locale. All four are functions of one Date
value read once at the top of updateStats, line 137. -/
structure DateTime where
  epochMs : Int
  hour : Nat
  dateNumber : Nat
  dateString : String

/-- The hour-granularity bucket key built at line 144 from the date string
and the hour. -/
def hourKey (now : DateTime) : String :=
  now.dateString ++ "-" ++ toString now.hour ++ ":00"

/-- Module-level mutable state of the engine: the three accumulator
instances (lines 125 to 127), the pending per-channel activity ledger
(line 128), and the last-flush clock markers (lines 130 to 132). -/
structure StatsState where
  hourly : Stat Nat NumOp
  daily : Stat RecordMap RecOp
  longterm : Stat Nat NumOp
  groups : List (String × Nat)
  lastUpdate : Int
  updateHour : Nat
  updateNumber : Nat

/-- The refresh interval of line 134, in milliseconds. -/
def REFRESH_INTERVAL : Int := 60000

/-- One statement queued by a flush: a numerical upsert, a recorded upsert,
or a channel activity merge (id, day number, delta) from lines 150 to 154. -/
inductive Stmt where
  | num : Upsert Nat NumOp → Stmt
  | recd : Upsert RecordMap RecOp → Stmt
  | channel (id : String) (dayNumber : Nat) (delta : Nat) : Stmt
deriving DecidableEq

/-- The taken branch of updateStats, lines 140 to 159: refresh the clock
markers, build the bucket keys from the Date read at entry, flush the three
accumulators in source order (hourly, daily, longterm), queue one activity
merge per pending ledger entry and empty the ledger. The statement list is
the sqls array handed to the database. -/
def runFlush (now : DateTime) (s : StatsState) : StatsState × List Stmt :=
  let dateString := now.dateString
  let hourString := hourKey now
  let hres := s.hourly.update hourString
  let dres := s.daily.update dateString
  let lres := s.longterm.update dateString
  let channelStmts := s.groups.map fun p => Stmt.channel p.1 now.dateNumber p.2
  ({ hourly := hres.1, daily := dres.1, longterm := lres.1, groups := []
     lastUpdate := now.epochMs, updateHour := now.hour, updateNumber := now.dateNumber },
   hres.2.map Stmt.num ++ dres.2.map Stmt.recd ++ lres.2.map Stmt.num ++ channelStmts)

/-- Flush check, lines 136 to 161: the body runs exactly when forced, or the
elapsed time since the last flush strictly exceeds the refresh interval, or
the current hour differs from the last recorded flush hour; otherwise
nothing happens and nothing is emitted. -/
def updateStats (forced : Bool) (now : DateTime) (s : StatsState) :
    StatsState × List Stmt :=
  if forced = true ∨ REFRESH_INTERVAL < now.epochMs - s.lastUpdate ∨ now.hour ≠ s.updateHour
  then runFlush now s
  else (s, [])

/-- Outgoing-message bookkeeping, lines 361 to 369 (without the trailing
flush check): bump hourly total and the subtype counter, longterm message,
daily botSend, and for group messages also daily group and the pending
channel activity ledger entry. -/
def updateSendStats (subtype selfId groupId : String) (s : StatsState) : StatsState :=
  let s := { s with hourly := (s.hourly.inc "total").inc subtype }
  let s := { s with longterm := s.longterm.inc "message" }
  let s := { s with daily := s.daily.add "botSend" selfId }
  if subtype = "group" then
    { s with daily := s.daily.add "group" groupId
             groups := aset s.groups groupId (((alookup s.groups groupId).getD 0) + 1) }
  else s

/-- The fixed recent-window length of line 163. -/
def RECENT_LENGTH : Nat := 5

/-- Value stored under a key of a historical record row: a number, or
anything else (the typeof check at line 169 skips non-numbers such as the
time column). -/
inductive JsonVal where
  | num : Rat → JsonVal
  | other : JsonVal
deriving DecidableEq

/-- One historical record row as the averaging code sees it. -/
abbrev Row := List (String × JsonVal)

/-- Rounding to one decimal as done at line 174 by toFixed 1 under a unary
plus: the nearest multiple of one tenth, half-ties toward the larger value. -/
def round1 (q : Rat) : Rat := ((round (q * 10) : Int) : Rat) / 10

/-- Body of the inner loop of average, lines 168 to 171: a numeric value is
added onto the running sum of its key (missing running sum counts as zero),
anything else is skipped by the typeof check. -/
def sumStep (res : List (String × Rat)) (p : String × JsonVal) : List (String × Rat) :=
  match p.2 with
  | JsonVal.num v => aset res p.1 (((alookup res p.1).getD 0) + v)
  | JsonVal.other => res

/-- The average function, lines 165 to 177: sum every numeric value per key
over the first RECENT_LENGTH rows, then divide each sum by RECENT_LENGTH
(always by the window size) rounded to one decimal. -/
def average (stats : List Row) : List (String × Rat) :=
  let result := (stats.take RECENT_LENGTH).foldl
    (fun res stat => stat.foldl sumStep res) []
  result.map fun p => (p.1, round1 (p.2 / (RECENT_LENGTH : Rat)))

/-- Specification-side helper: the sum of the numeric values stored under a
key in one row. -/
def rowNum (k : String) (row : Row) : Rat :=
  (row.filterMap fun p =>
    if p.1 = k then
      match p.2 with
      | JsonVal.num v => some v
      | JsonVal.other => none
    else none).sum

/-- Specification-side helper: whether a row stores a numeric value under a
key. -/
def rowHasNum (k : String) (row : Row) : Bool :=
  row.any fun p => p.1 = k && (match p.2 with | JsonVal.num _ => true | JsonVal.other => false)

/-- Specification-side helper: the sum of all numeric values stored under a
key across a window of rows (a row without the key contributes zero). -/
def windowSum (k : String) (stats : List Row) : Rat :=
  (stats.map (rowNum k)).sum

/-- Specification-side helper: whether any row of the window stores a
numeric value under the key. -/
def windowHas (k : String) (stats : List Row) : Bool :=
  stats.any (rowHasNum k)

/-- State of the per-date snapshot cache, lines 308 to 310: the date the
cached computation was started for (initially undefined), the identifier of
that computation (the promise every request for the date awaits), and a
counter of how many snapshot computations, each issuing the four historical
queries of lines 211 to 216 once, have been started. -/
structure CacheState where
  cachedDate : Option String
  cachedComp : Nat
  runs : Nat
deriving DecidableEq

/-- The cache logic of patch, lines 312 to 318: when the requested date
differs from the cached date, start a fresh snapshot computation and
remember it together with the date; then await the remembered computation.
The returned number identifies the computation this request awaits. -/
def patch (date : String) (s : CacheState) : CacheState × Nat :=
  if s.cachedDate = some date then (s, s.cachedComp)
  else
    ({ cachedDate := some date, cachedComp := s.runs + 1, runs := s.runs + 1 },
     s.runs + 1)

/-- One entry pushed onto the snapshot group list, lines 242 to 248 and 257
to 264. The last field may be undefined when the newest daily record has no
entry for the channel. -/
structure GroupData where
  name : String
  platform : String
  assignee : String
  value : Rat
  last : Option Nat
deriving DecidableEq

/-- Environment the group enumeration reads: the averaged per-channel
message map, the stored channel rows (name and assignee keyed by id), the
group record of the newest daily row when one exists, and the bot registry
lookup used for app dot bots at line 247. -/
structure GEnv where
  messageMap : List (String × Rat)
  groupMap : List (String × (String × String))
  historyHead : Option RecordMap
  selfIdOf : String → Option String

/-- Mutable state threaded through the enumeration: the seen-id set, the
snapshot group list and the queued name updates (lines 228 to 232). -/
structure GState where
  groupSet : List String
  groups : List GroupData
  updateList : List (String × String)
deriving DecidableEq

/-- One live entity handle: its platform tag and the result of
getGroupList, which either lists pairs of group id and group name or fails. -/
structure BotModel where
  platform : String
  groupList : Except Unit (List (String × String))

/-- Body of the loop of getGroupInfo, lines 236 to 249, processed entry by
entry. A JavaScript throw inside the body (destructuring a missing channel
row, or property access through a missing history head or unknown assignee)
stops the remaining entries of this handle and keeps the mutations already
made, reported with the false flag. -/
def processEntries (platform : String) (env : GEnv) :
    List (String × String) → GState → GState × Bool
  | [], st => (st, true)
  | entry :: rest, st =>
    let id := platform ++ ":" ++ entry.1
    if ((alookup env.messageMap id).getD 0 = 0) ∨ st.groupSet.contains id then
      processEntries platform env rest st
    else
      let st1 := { st with groupSet := st.groupSet ++ [id] }
      match alookup env.groupMap id with
      | none => (st1, false)
      | some pair =>
        let st2 := if entry.2 ≠ pair.1
          then { st1 with updateList := st1.updateList ++ [(id, entry.2)] }
          else st1
        match env.historyHead, env.selfIdOf pair.2 with
        | some head, some selfId =>
          processEntries platform env rest
            { st2 with groups := st2.groups ++
                [{ name := entry.2, platform := platform, assignee := selfId
                   value := (alookup env.messageMap id).getD 0
                   last := alookup head id }] }
        | _, _ => (st2, false)

/-- One handle of getGroupInfo, lines 234 to 250: await the handle's listing
(a failure there happens before any mutation), then run the loop body. -/
def getGroupInfo (bot : BotModel) (env : GEnv) (st : GState) : GState × Bool :=
  match bot.groupList with
  | Except.error _ => (st, false)
  | Except.ok entries => processEntries bot.platform env entries st

/-- The enumeration over all handles at line 252: every handle runs under a
catch that swallows its failure, so the accumulated state is kept and the
next handle still runs; snapshot assembly then continues with the result. -/
def collectBots (bots : List BotModel) (env : GEnv) (st : GState) : GState :=
  bots.foldl (fun st bot => (getGroupInfo bot env st).1) st

/-- A batch of Recorded increments applied in sequence, as the event
handlers of lines 346 to 359 do between two flush checks. -/
def applyAdds (r : Stat RecordMap RecOp) (l : List (String × String)) :
    Stat RecordMap RecOp :=
  l.foldl (fun r p => r.add p.1 p.2) r

/-- The channel activity content of a statement: id, day number and delta
for the merge of lines 150 to 154, none for accumulator upserts. -/
def Stmt.channelPart : Stmt → Option (String × Nat × Nat)
  | .channel id day delta => some (id, day, delta)
  | _ => none

/-- Concrete engine state used to exercise the theorems on explicit inputs:
fresh accumulators, one pending channel activity entry, and clock markers of
a flush that happened at millisecond zero during hour ten. -/
def demoState : StatsState :=
  { hourly := hourlyInit, daily := dailyInit, longterm := longtermInit
    groups := [("123", 2)], lastUpdate := 0, updateHour := 10, updateNumber := 19700 }

/-- Clock reading thirty seconds after the demo flush, in the next hour. -/
def demoNow : DateTime :=
  { epochMs := 30000, hour := 11, dateNumber := 19700, dateString := "2024/1/1" }

/-- Clock reading thirty seconds after the demo flush, in the same hour. -/
def demoNowSame : DateTime :=
  { epochMs := 30000, hour := 10, dateNumber := 19700, dateString := "2024/1/1" }

/-- A handle whose listing succeeds with one group. -/
def demoBotOk : BotModel :=
  { platform := "onebot", groupList := Except.ok [("42", "good group")] }

/-- A handle whose listing fails. -/
def demoBotBad : BotModel :=
  { platform := "onebot", groupList := Except.error () }

/-- Environment for the enumeration demos: the averaged message map and the
stored channel rows know the one good group. -/
def demoEnv : GEnv :=
  { messageMap := [("onebot:42", 3)]
    groupMap := [("onebot:42", ("good group", "bot1"))]
    historyHead := some [("onebot:42", 7)]
    selfIdOf := fun _ => some "self1" }

/-- Empty enumeration state. -/
def demoGState : GState := { groupSet := [], groups := [], updateList := [] }

theorem alookup_aset_self {κ α : Type} [DecidableEq κ] (l : List (κ × α)) (k : κ) (v : α) :
    alookup (aset l k v) k = some v := by
  induction l with
  | nil => simp [aset, alookup]
  | cons p rest ih =>
    by_cases h : p.1 = k
    · simp [aset, h, alookup]
    · simp [aset, h, alookup, ih]

theorem alookup_aset_ne {κ α : Type} [DecidableEq κ] (l : List (κ × α)) (k k' : κ) (v : α)
    (h : k ≠ k') : alookup (aset l k v) k' = alookup l k' := by
  induction l with
  | nil => simp [aset, alookup, h]
  | cons p rest ih =>
    by_cases hp : p.1 = k
    · simp [aset, hp, alookup, h]
    · simp only [aset, if_neg hp, alookup]
      by_cases hq : p.1 = k'
      · simp [hq]
      · simp [hq, ih]

theorem alookup_eq_none {κ α : Type} [DecidableEq κ] (l : List (κ × α)) (k : κ) :
    alookup l k = none ↔ k ∉ l.map Prod.fst := by
  induction l with
  | nil => simp [alookup]
  | cons p rest ih =>
    by_cases h : p.1 = k
    · simp [alookup, h]
    · simp [alookup, h, ih, Ne.symm h]

theorem alookup_map_snd {κ α β : Type} [DecidableEq κ] (l : List (κ × α)) (f : α → β) (k : κ) :
    alookup (l.map fun p => (p.1, f p.2)) k = (alookup l k).map f := by
  induction l with
  | nil => simp [alookup]
  | cons p rest ih =>
    by_cases h : p.1 = k
    · simp [alookup, h]
    · simp [alookup, h, ih]

theorem Stat.update_of_empty {V U : Type} (s : Stat V U) (d : String)
    (h : (s.data.filterMap fun p => s.config.update p.1 p.2).isEmpty = true) :
    s.update d = (s, []) := by
  simp [Stat.update, h]

theorem Stat.update_of_hit {V U : Type} (s : Stat V U) (d : String)
    (h1 : (s.data.filterMap fun p => s.config.update p.1 p.2).isEmpty = false)
    (h2 : s.key = some d) :
    s.update d = ({ s with data := s.clearData },
      [Upsert.updateRow s.table d (s.data.filterMap fun p => s.config.update p.1 p.2)]) := by
  simp [Stat.update, h1, h2]

theorem Stat.update_of_miss {V U : Type} (s : Stat V U) (d : String)
    (h1 : (s.data.filterMap fun p => s.config.update p.1 p.2).isEmpty = false)
    (h2 : s.key ≠ some d) :
    s.update d = ({ s with key := some d, data := s.clearData },
      [Upsert.insertRow s.table d s.data
        (s.data.filterMap fun p => s.config.update p.1 p.2)]) := by
  simp [Stat.update, h1, h2]

theorem Stat.update_fst_cases {V U : Type} (s : Stat V U) (d : String) :
    s.update d = (s, []) ∨
    ((s.update d).1.data = s.clearData ∧ (s.update d).1.config = s.config
      ∧ (s.update d).1.fields = s.fields ∧ (s.update d).1.table = s.table) := by
  cases h : (s.data.filterMap fun p => s.config.update p.1 p.2).isEmpty with
  | true => left; exact Stat.update_of_empty s d h
  | false =>
    right
    by_cases h2 : s.key = some d
    · rw [Stat.update_of_hit s d h h2]; exact ⟨rfl, rfl, rfl, rfl⟩
    · rw [Stat.update_of_miss s d h h2]; exact ⟨rfl, rfl, rfl, rfl⟩

theorem Stat.update_key_of_emit {V U : Type} (s : Stat V U) (d : String)
    (h : (s.update d).2 ≠ []) : (s.update d).1.key = some d := by
  cases hm : (s.data.filterMap fun p => s.config.update p.1 p.2).isEmpty with
  | true => rw [Stat.update_of_empty s d hm] at h; simp at h
  | false =>
    by_cases h2 : s.key = some d
    · rw [Stat.update_of_hit s d hm h2]; exact h2
    · rw [Stat.update_of_miss s d hm h2]

theorem Stat.update_mem_shape {V U : Type} (s : Stat V U) (d : String) :
    ∀ u ∈ (s.update d).2, u.time = d ∧ (u.rowData = none ∨ u.rowData = some s.data) := by
  intro u hu
  cases hm : (s.data.filterMap fun p => s.config.update p.1 p.2).isEmpty with
  | true => rw [Stat.update_of_empty s d hm] at hu; simp at hu
  | false =>
    by_cases h2 : s.key = some d
    · rw [Stat.update_of_hit s d hm h2] at hu
      simp at hu
      subst hu
      simp [Upsert.time, Upsert.rowData]
    · rw [Stat.update_of_miss s d hm h2] at hu
      simp at hu
      subst hu
      simp [Upsert.time, Upsert.rowData]

theorem Stat.clearData_filterMap {V U : Type} (s : Stat V U)
    (hsetup : ∀ g, s.config.update g s.config.setup = none) :
    (s.clearData.filterMap fun p => s.config.update p.1 p.2) = [] := by
  unfold Stat.clearData
  rw [List.filterMap_map]
  simp [Function.comp, hsetup]

theorem Stat.update_drain_twice {V U : Type} (s : Stat V U) (d d' : String)
    (hsetup : ∀ g, s.config.update g s.config.setup = none) :
    ((s.update d).1.update d').2 = [] := by
  have hclear : (({ s with data := s.clearData } : Stat V U).update d').2 = [] := by
    have h3 := Stat.update_of_empty ({ s with data := s.clearData } : Stat V U) d' (by
      show ((s.clearData.filterMap fun p => s.config.update p.1 p.2)).isEmpty = true
      rw [Stat.clearData_filterMap s hsetup]
      rfl)
    simp [h3]
  cases hm : (s.data.filterMap fun p => s.config.update p.1 p.2).isEmpty with
  | true =>
    rw [Stat.update_of_empty s d hm]
    simpa using Stat.update_of_empty s d' hm ▸ rfl
  | false =>
    by_cases h2 : s.key = some d
    · rw [Stat.update_of_hit s d hm h2]
      exact hclear
    · rw [Stat.update_of_miss s d hm h2]
      have hclear2 : (({ s with key := some d, data := s.clearData } : Stat V U).update d').2
          = [] := by
        have h3 := Stat.update_of_empty
          ({ s with key := some d, data := s.clearData } : Stat V U) d' (by
            show ((s.clearData.filterMap fun p => s.config.update p.1 p.2)).isEmpty = true
            rw [Stat.clearData_filterMap s hsetup]
            rfl)
        simp [h3]
      exact hclear2

theorem Stat.update_isInsert_hit {V U : Type} (s : Stat V U) (d : String)
    (h : s.key = some d) :
    (s.update d).2.map Upsert.isInsert = [] ∨
    (s.update d).2.map Upsert.isInsert = [false] := by
  cases hm : (s.data.filterMap fun p => s.config.update p.1 p.2).isEmpty with
  | true => left; simp [Stat.update_of_empty s d hm]
  | false => right; rw [Stat.update_of_hit s d hm h]; rfl

theorem Stat.update_isInsert_miss {V U : Type} (s : Stat V U) (d : String)
    (h : s.key ≠ some d) :
    (s.update d).2.map Upsert.isInsert = [] ∨
    (s.update d).2.map Upsert.isInsert = [true] := by
  cases hm : (s.data.filterMap fun p => s.config.update p.1 p.2).isEmpty with
  | true => left; simp [Stat.update_of_empty s d hm]
  | false => right; rw [Stat.update_of_miss s d hm h]; rfl

theorem Stat.add_key (r : Stat RecordMap RecOp) (f k : String) : (r.add f k).key = r.key := rfl

theorem applyAdds_key (r : Stat RecordMap RecOp) (l : List (String × String)) :
    (applyAdds r l).key = r.key := by
  induction l generalizing r with
  | nil => rfl
  | cons p rest ih => simpa [applyAdds, List.foldl_cons] using ih (r.add p.1 p.2)

theorem hourlyInit_incN_data (N : Nat) :
    (hourlyInit.incN "total" N).data =
      [("total", N), ("group", 0), ("private", 0), ("command", 0), ("dialogue", 0)] := by
  induction N with
  | zero => rfl
  | succ n ih => simp [Stat.incN, Stat.inc, ih]

theorem hourlyInit_incN_props (N : Nat) :
    (hourlyInit.incN "total" N).key = none ∧
    (hourlyInit.incN "total" N).table = "stats_hourly" ∧
    (hourlyInit.incN "total" N).config = numericalConfig := by
  induction N with
  | zero => exact ⟨rfl, rfl, rfl⟩
  | succ n ih => exact ⟨ih.1, ih.2.1, ih.2.2⟩

theorem hourlyInit_incN_flush (N : Nat) (date : String) (h : N ≠ 0) :
    ((hourlyInit.incN "total" N).update date).2 =
      [Upsert.insertRow "stats_hourly" date
        [("total", N), ("group", 0), ("private", 0), ("command", 0), ("dialogue", 0)]
        [("total", N)]] := by
  have hd := hourlyInit_incN_data N
  obtain ⟨hk, ht, hc⟩ := hourlyInit_incN_props N
  have hfm : ((hourlyInit.incN "total" N).data.filterMap
      fun p => (hourlyInit.incN "total" N).config.update p.1 p.2) = [("total", N)] := by
    rw [hd, hc]
    simp [numericalConfig, h]
  rw [Stat.update_of_miss (hourlyInit.incN "total" N) date (by rw [hfm]; rfl)
    (by rw [hk]; simp)]
  rw [ht, hd, hc]
  simp [numericalConfig, h]

/-- C1 as stated is false: an accumulator remembers only the key of its most
recent emitting flush, so with flushes keyed A then B then A, the first
flush at key A emits an INSERT and the third flush, again at key A, emits a
second INSERT rather than a merge-UPDATE. -/
theorem stat_repeat_key_reinsert_cex :
    (((hourlyInit.inc "total").update "A").2.map (fun u => (u.isInsert, u.time))
      = [(true, "A")])
  ∧ (((((((hourlyInit.inc "total").update "A").1.inc "total").update "B").1.inc
      "total").update "A").2.map (fun u => (u.isInsert, u.time)) = [(true, "A")]) := by decide

/-- C1 amended: a flush emits a merge-UPDATE only when its bucket key equals
the key remembered from the last emitting flush, an INSERT only when it
differs (initially nothing is remembered); an emitting flush makes its key
the remembered one and increments never change it, so two consecutive
flushes under the same key emit at most one INSERT, the first, and never a
second INSERT. -/
theorem stat_insert_policy (V U : Type) (s : Stat V U) (r : Stat RecordMap RecOp)
    (date : String) (l : List (String × String)) :
    (s.key = some date →
      ((s.update date).2.map Upsert.isInsert = []
        ∨ (s.update date).2.map Upsert.isInsert = [false]))
  ∧ (s.key ≠ some date →
      ((s.update date).2.map Upsert.isInsert = []
        ∨ (s.update date).2.map Upsert.isInsert = [true]))
  ∧ ((s.update date).2 ≠ [] → (s.update date).1.key = some date)
  ∧ ((applyAdds r l).key = r.key)
  ∧ ((r.update date).2 ≠ [] →
      ((applyAdds (r.update date).1 l).update date).2.map Upsert.isInsert ≠ [true]) := by
  refine ⟨Stat.update_isInsert_hit s date, Stat.update_isInsert_miss s date,
    Stat.update_key_of_emit s date, applyAdds_key r l, ?_⟩
  intro hne
  have hkey : (applyAdds (r.update date).1 l).key = some date := by
    rw [applyAdds_key]; exact Stat.update_key_of_emit r date hne
  rcases Stat.update_isInsert_hit (applyAdds (r.update date).1 l) date hkey with h | h <;>
    simp [h]

theorem stat_insert_policy_witness :
    ((dailyInit.add "command" "x").update "A").2 ≠ []
  ∧ ((applyAdds ((dailyInit.add "command" "x").update "A").1 [("command", "y")]).update
      "A").2.map Upsert.isInsert ≠ [true] := by
  refine ⟨by decide, ?_⟩
  exact (stat_insert_policy RecordMap RecOp dailyInit (dailyInit.add "command" "x") "A"
    [("command", "y")]).2.2.2.2 (by decide)

theorem alookup_bump (l : List (String × Nat)) (f : String) :
    alookup (l.map fun p => if p.1 = f then (p.1, p.2 + 1) else p) f
      = (alookup l f).map (· + 1) := by
  induction l with
  | nil => rfl
  | cons p rest ih =>
    by_cases h : p.1 = f
    · simp [alookup, h]
    · simp [alookup, h, ih]

theorem alookup_incN_data (t : Stat Nat NumOp) (f : String) (N : Nat) :
    alookup (t.incN f N).data f = (alookup t.data f).map (· + N) := by
  induction N with
  | zero => cases h : alookup t.data f <;> simp [Stat.incN, h]
  | succ n ih =>
    show alookup ((t.incN f n).inc f).data f = _
    rw [show ((t.incN f n).inc f).data = (t.incN f n).data.map
        (fun p => if p.1 = f then (p.1, p.2 + 1) else p) from rfl,
      alookup_bump, ih]
    cases h : alookup t.data f <;> simp [h, Nat.add_assoc]

/-- C3: N increments of any field of a Numerical accumulator raise that
field's counter by exactly N, and the counter of the hourly total field
after N increments from fresh state flushes as the single delta N; with
zero increments nothing is emitted; a second flush directly after a flush
emits nothing because the data was cleared; and an accumulator whose data
still holds the setup values emits no statement and stays unchanged. -/
theorem flush_each_increment_once (V U : Type) (s : Stat V U) (t : Stat Nat NumOp)
    (f dateA dateB : String) (N : Nat) :
    (alookup (t.incN f N).data f = (alookup t.data f).map (· + N))
  ∧ (N ≠ 0 → ((hourlyInit.incN "total" N).update dateA).2 =
      [Upsert.insertRow "stats_hourly" dateA
        [("total", N), ("group", 0), ("private", 0), ("command", 0), ("dialogue", 0)]
        [("total", N)]])
  ∧ (((hourlyInit.incN "total" 0).update dateA).2 = [])
  ∧ ((∀ g, s.config.update g s.config.setup = none) →
      ((((s.update dateA).1.update dateB).2 = [])
        ∧ (s.data = s.clearData → s.update dateA = (s, [])))) := by
  refine ⟨alookup_incN_data t f N, fun h => hourlyInit_incN_flush N dateA h, ?_,
    fun hsetup => ⟨Stat.update_drain_twice s dateA dateB hsetup, fun hdata => ?_⟩⟩
  · simp [Stat.incN, Stat.update_of_empty hourlyInit dateA rfl]
  · exact Stat.update_of_empty s dateA
      (by rw [hdata, Stat.clearData_filterMap s hsetup]; rfl)

theorem flush_each_increment_once_witness :
    (((hourlyInit.incN "total" 3).update "2024/1/1").2 =
      [Upsert.insertRow "stats_hourly" "2024/1/1"
        [("total", 3), ("group", 0), ("private", 0), ("command", 0), ("dialogue", 0)]
        [("total", 3)]])
  ∧ (((hourlyInit.update "2024/1/1").1.update "2024/1/2").2 = [])
  ∧ (hourlyInit.update "2024/1/1" = (hourlyInit, [])) := by
  have h := flush_each_increment_once Nat NumOp hourlyInit hourlyInit "total"
    "2024/1/1" "2024/1/2" 3
  exact ⟨h.2.1 (by decide), (h.2.2.2 fun g => rfl).1, (h.2.2.2 fun g => rfl).2 rfl⟩

theorem mergeRecord_cons (stored : RecordMap) (p : String × Nat) (rest : RecordMap) :
    mergeRecord stored (p :: rest) =
    mergeRecord (aset stored p.1 (((alookup stored p.1).getD 0) + p.2)) rest := rfl

theorem mergeRecord_not_mem (pending : RecordMap) (stored : RecordMap) (k : String)
    (h : k ∉ pending.map Prod.fst) :
    alookup (mergeRecord stored pending) k = alookup stored k := by
  induction pending generalizing stored with
  | nil => rfl
  | cons p rest ih =>
    simp only [List.map_cons, List.mem_cons, not_or] at h
    rw [mergeRecord_cons, ih _ (by simpa using h.2)]
    exact alookup_aset_ne stored p.1 k _ (Ne.symm h.1)

theorem mergeRecord_mem (pending : RecordMap) (k : String) (v : Nat) :
    ∀ stored : RecordMap, (k, v) ∈ pending → (pending.map Prod.fst).Nodup →
    alookup (mergeRecord stored pending) k = some (((alookup stored k).getD 0) + v) := by
  induction pending with
  | nil => intro stored hmem _; simp at hmem
  | cons p rest ih =>
    intro stored hmem hnd
    obtain ⟨pk, pv⟩ := p
    simp only [List.map_cons, List.nodup_cons] at hnd
    rw [mergeRecord_cons]
    rcases List.mem_cons.1 hmem with he | hmem2
    · injection he with h1 h2
      subst h1
      subst h2
      rw [mergeRecord_not_mem _ _ _ hnd.1]
      simp [alookup_aset_self]
    · have hk : pk ≠ k := by
        intro he2
        subst he2
        exact hnd.1 (List.mem_map.2 ⟨(pk, v), hmem2, rfl⟩)
      rw [ih _ hmem2 hnd.2]
      simp [alookup_aset_ne stored pk k _ hk]

/-- C2: the insert path of any accumulator flush carries the full data
record, for a Recorded accumulator the full nested map; applying the emitted
per-key merge to a stored map adds each pending delta onto the stored value
of its key, a missing stored key counting as zero, and leaves stored keys
without a pending delta unchanged; merging a pending record with a at 2 into
a stored record with a at 3 and b at 1 yields a at 5 and b at 1; and
incrementing field command with key help three times then flushing at bucket
2024-01-01 inserts a command record with help at 3, one further increment
flushed at the same bucket emits a merge of help at 1, and that merge turns
a stored help at 3 into help at 4. -/
theorem recorded_merge_semantics (r : Stat RecordMap RecOp) (date : String)
    (stored pending : RecordMap) (k : String) (v : Nat) :
    (∀ u ∈ (r.update date).2, u.isInsert = true → u.rowData = some r.data)
  ∧ (alookup pending k = none →
      alookup (mergeRecord stored pending) k = alookup stored k)
  ∧ ((k, v) ∈ pending → (pending.map Prod.fst).Nodup →
      alookup (mergeRecord stored pending) k = some (((alookup stored k).getD 0) + v))
  ∧ (mergeRecord [("a", 3), ("b", 1)] [("a", 2)] = [("a", 5), ("b", 1)])
  ∧ ((((dailyInit.add "command" "help").add "command" "help").add "command"
      "help").update "2024-01-01").2 =
      [Upsert.insertRow "stats_daily" "2024-01-01"
        [("command", [("help", 3)]), ("dialogue", []), ("botSend", []),
         ("botReceive", []), ("group", [])]
        [("command", [("help", 3)])]]
  ∧ (((((((dailyInit.add "command" "help").add "command" "help").add "command"
      "help").update "2024-01-01").1.add "command" "help").update "2024-01-01").2 =
      [Upsert.updateRow "stats_daily" "2024-01-01" [("command", [("help", 1)])]])
  ∧ (mergeRecord [("help", 3)] [("help", 1)] = [("help", 4)]) := by
  refine ⟨?_, ?_, fun hm hnd => mergeRecord_mem pending k v stored hm hnd, by decide,
    by decide, by decide, by decide⟩
  · intro u hu hins
    rcases (Stat.update_mem_shape r date u hu).2 with h | h
    · cases u with
      | updateRow t tm ups => simp [Upsert.isInsert] at hins
      | insertRow t tm dd ups => simp [Upsert.rowData] at h
    · exact h
  · intro hnone
    exact mergeRecord_not_mem pending stored k ((alookup_eq_none pending k).1 hnone)

theorem recorded_merge_semantics_witness :
    (alookup (mergeRecord [("a", 3), ("b", 1)] [("a", 2)]) "a" =
      some (((alookup [("a", 3), ("b", 1)] "a").getD 0) + 2))
  ∧ (alookup (mergeRecord [("a", 3), ("b", 1)] [("a", 2)]) "b" =
      alookup [("a", 3), ("b", 1)] "b") := by
  have h := recorded_merge_semantics dailyInit "2024-01-01" [("a", 3), ("b", 1)]
    [("a", 2)] "a" 2
  have h2 := recorded_merge_semantics dailyInit "2024-01-01" [("a", 3), ("b", 1)]
    [("a", 2)] "b" 2
  exact ⟨h.2.2.1 (by decide) (by decide), h2.2.1 (by decide)⟩

theorem filterMap_channelPart_num (l : List (Upsert Nat NumOp)) :
    (l.map Stmt.num).filterMap Stmt.channelPart = [] := by
  induction l with
  | nil => rfl
  | cons u rest ih => simp [Stmt.channelPart, ih]

theorem filterMap_channelPart_recd (l : List (Upsert RecordMap RecOp)) :
    (l.map Stmt.recd).filterMap Stmt.channelPart = [] := by
  induction l with
  | nil => rfl
  | cons u rest ih => simp [Stmt.channelPart, ih]

theorem filterMap_channelPart_channel (l : List (String × Nat)) (day : Nat) :
    ((l.map fun p => Stmt.channel p.1 day p.2).filterMap Stmt.channelPart)
      = l.map fun p => (p.1, day, p.2) := by
  induction l with
  | nil => rfl
  | cons p rest ih => simp [Stmt.channelPart, ih]

/-- C4: the flush check runs the flush body exactly when forced is set, or
the elapsed wall-clock time since the last flush strictly exceeds the
60000 millisecond refresh interval, or the current hour differs from the
last recorded flush hour; in particular crossing an hour boundary before
the refresh interval has elapsed still triggers the flush. -/
theorem updateStats_trigger (forced : Bool) (now : DateTime) (s : StatsState) :
    (REFRESH_INTERVAL = 60000)
  ∧ ((forced = true ∨ REFRESH_INTERVAL < now.epochMs - s.lastUpdate
        ∨ now.hour ≠ s.updateHour) →
      updateStats forced now s = runFlush now s)
  ∧ (¬(forced = true ∨ REFRESH_INTERVAL < now.epochMs - s.lastUpdate
        ∨ now.hour ≠ s.updateHour) →
      updateStats forced now s = (s, []))
  ∧ (now.epochMs - s.lastUpdate ≤ REFRESH_INTERVAL → now.hour ≠ s.updateHour →
      updateStats forced now s = runFlush now s) := by
  refine ⟨rfl, fun h => ?_, fun h => ?_, fun h1 h2 => ?_⟩
  · unfold updateStats; rw [if_pos h]
  · unfold updateStats; rw [if_neg h]
  · unfold updateStats; rw [if_pos (Or.inr (Or.inr h2))]

theorem updateStats_trigger_witness :
    (updateStats false demoNow demoState = runFlush demoNow demoState)
  ∧ (updateStats false demoNowSame demoState = (demoState, [])) := by
  have h := updateStats_trigger false demoNow demoState
  have h2 := updateStats_trigger false demoNowSame demoState
  exact ⟨h.2.2.2 (by decide) (by decide), h2.2.2.1 (by decide)⟩

/-- C10: with forced unset, the elapsed time not exceeding the refresh
interval and an unchanged hour, the flush check issues no statement and
leaves every piece of state untouched: each accumulator's data and
remembered bucket key, the pending activity ledger, and the recorded
last-flush time, hour and day number. -/
theorem updateStats_frame (forced : Bool) (now : DateTime) (s : StatsState)
    (hf : forced = false)
    (h1 : now.epochMs - s.lastUpdate ≤ REFRESH_INTERVAL)
    (h2 : now.hour = s.updateHour) :
    updateStats forced now s = (s, [])
  ∧ (updateStats forced now s).1.hourly.data = s.hourly.data
  ∧ (updateStats forced now s).1.hourly.key = s.hourly.key
  ∧ (updateStats forced now s).1.daily.data = s.daily.data
  ∧ (updateStats forced now s).1.daily.key = s.daily.key
  ∧ (updateStats forced now s).1.longterm.data = s.longterm.data
  ∧ (updateStats forced now s).1.longterm.key = s.longterm.key
  ∧ (updateStats forced now s).1.groups = s.groups
  ∧ (updateStats forced now s).1.lastUpdate = s.lastUpdate
  ∧ (updateStats forced now s).1.updateHour = s.updateHour
  ∧ (updateStats forced now s).1.updateNumber = s.updateNumber
  ∧ (updateStats forced now s).2 = [] := by
  have hmain : updateStats forced now s = (s, []) := by
    have hcond : ¬(forced = true ∨ REFRESH_INTERVAL < now.epochMs - s.lastUpdate
        ∨ now.hour ≠ s.updateHour) := by
      push_neg
      exact ⟨by simp [hf], h1, h2⟩
    unfold updateStats
    rw [if_neg hcond]
  simp [hmain]

theorem updateStats_frame_witness :
    updateStats false demoNowSame demoState = (demoState, []) :=
  (updateStats_frame false demoNowSame demoState rfl (by decide) rfl).1

/-- C7: every statement emitted by a flush carries a bucket key computed
from the single clock reading taken before any accumulator was cleared:
numerical upserts carry the hour key or the date string of that reading,
recorded upserts its date string, channel merges its day number; and every
insert payload is an accumulator data record as it stood before this flush
cleared it, so the keys describe the flushed data, not a later moment. -/
theorem flush_bucket_keys (forced : Bool) (now : DateTime) (s : StatsState) :
    ∀ stmt ∈ (updateStats forced now s).2,
      (∀ u, stmt = Stmt.num u →
        ((u.time = hourKey now ∧ (u.rowData = none ∨ u.rowData = some s.hourly.data))
          ∨ (u.time = now.dateString
              ∧ (u.rowData = none ∨ u.rowData = some s.longterm.data))))
    ∧ (∀ u, stmt = Stmt.recd u →
        (u.time = now.dateString ∧ (u.rowData = none ∨ u.rowData = some s.daily.data)))
    ∧ (∀ id day delta, stmt = Stmt.channel id day delta →
        (day = now.dateNumber ∧ (id, delta) ∈ s.groups)) := by
  intro stmt hmem
  unfold updateStats at hmem
  by_cases hcond : forced = true ∨ REFRESH_INTERVAL < now.epochMs - s.lastUpdate
      ∨ now.hour ≠ s.updateHour
  case neg => rw [if_neg hcond] at hmem; simp at hmem
  case pos =>
  rw [if_pos hcond] at hmem
  unfold runFlush at hmem
  simp only [List.mem_append] at hmem
  rcases hmem with ((hm | hm) | hm) | hm
  · obtain ⟨u, hu, hst⟩ := List.mem_map.1 hm
    subst hst
    refine ⟨?_, ?_, ?_⟩
    · intro u' heq
      injection heq with h
      subst h
      exact Or.inl ⟨(Stat.update_mem_shape s.hourly (hourKey now) u hu).1,
        (Stat.update_mem_shape s.hourly (hourKey now) u hu).2⟩
    · intro u' heq; exact absurd heq (by simp)
    · intro id day delta heq; exact absurd heq (by simp)
  · obtain ⟨u, hu, hst⟩ := List.mem_map.1 hm
    subst hst
    refine ⟨?_, ?_, ?_⟩
    · intro u' heq; exact absurd heq (by simp)
    · intro u' heq
      injection heq with h
      subst h
      exact ⟨(Stat.update_mem_shape s.daily now.dateString u hu).1,
        (Stat.update_mem_shape s.daily now.dateString u hu).2⟩
    · intro id day delta heq; exact absurd heq (by simp)
  · obtain ⟨u, hu, hst⟩ := List.mem_map.1 hm
    subst hst
    refine ⟨?_, ?_, ?_⟩
    · intro u' heq
      injection heq with h
      subst h
      exact Or.inr ⟨(Stat.update_mem_shape s.longterm now.dateString u hu).1,
        (Stat.update_mem_shape s.longterm now.dateString u hu).2⟩
    · intro u' heq; exact absurd heq (by simp)
    · intro id day delta heq; exact absurd heq (by simp)
  · obtain ⟨p, hp, hst⟩ := List.mem_map.1 hm
    subst hst
    refine ⟨?_, ?_, ?_⟩
    · intro u' heq; exact absurd heq (by simp)
    · intro u' heq; exact absurd heq (by simp)
    · intro id day delta heq
      injection heq with e1 e2 e3
      subst e1
      subst e2
      subst e3
      exact ⟨rfl, by simpa using hp⟩

theorem flush_bucket_keys_witness :
    19700 = demoNow.dateNumber ∧ ("123", 2) ∈ demoState.groups := by
  have h := flush_bucket_keys true demoNow demoState (Stmt.channel "123" 19700 2) (by decide)
  exact h.2.2 "123" 19700 2 rfl

/-- C8: when the flush condition holds, the flush queues, in ledger order,
exactly one channel merge statement per pending ledger entry carrying its
id, the current day number and its delta; the effect of such a merge on any
stored activity map is to set the day slot to the old value, zero when
missing, plus the delta while touching no other slot; and the returned
state has an empty ledger already at queueing time, before any write is
confirmed durable. -/
theorem flush_activity_merge (forced : Bool) (now : DateTime) (s : StatsState)
    (act : List (Nat × Nat)) (day delta : Nat)
    (h : forced = true ∨ REFRESH_INTERVAL < now.epochMs - s.lastUpdate
        ∨ now.hour ≠ s.updateHour) :
    ((updateStats forced now s).1.groups = [])
  ∧ ((updateStats forced now s).2.filterMap Stmt.channelPart
      = s.groups.map fun p => (p.1, now.dateNumber, p.2))
  ∧ (alookup (applyActivity act day delta) day
      = some (((alookup act day).getD 0) + delta))
  ∧ (∀ d, d ≠ day → alookup (applyActivity act day delta) d = alookup act d) := by
  have hu : updateStats forced now s = runFlush now s := by
    unfold updateStats; rw [if_pos h]
  refine ⟨by rw [hu]; rfl, ?_, by simp [applyActivity, alookup_aset_self],
    fun d hd => by simp [applyActivity, alookup_aset_ne act day d _ (Ne.symm hd)]⟩
  rw [hu]
  unfold runFlush
  simp only [List.filterMap_append, filterMap_channelPart_num,
    filterMap_channelPart_recd, filterMap_channelPart_channel, List.nil_append,
    List.append_nil]

theorem flush_activity_merge_witness :
    ((updateStats true demoNow demoState).1.groups = [])
  ∧ ((updateStats true demoNow demoState).2.filterMap Stmt.channelPart
      = demoState.groups.map fun p => (p.1, demoNow.dateNumber, p.2)) := by
  have h := flush_activity_merge true demoNow demoState [(19699, 5)] 19700 2 (Or.inl rfl)
  exact ⟨h.1, h.2.1⟩

theorem rowNum_not_has (k : String) (row : Row) :
    rowHasNum k row = false → rowNum k row = 0 := by
  induction row with
  | nil => intro _; rfl
  | cons p rest ih =>
    intro h
    obtain ⟨pk, pv⟩ := p
    rw [rowHasNum, List.any_cons, Bool.or_eq_false_iff] at h
    obtain ⟨h1, h2⟩ := h
    rw [rowNum, List.filterMap_cons]
    cases pv with
    | num v =>
      by_cases hk : pk = k
      · rw [hk] at h1; simp at h1
      · simp only [if_neg hk]
        exact ih h2
    | other =>
      simp only [ite_self]
      exact ih h2

theorem windowSum_not_has (k : String) (stats : List Row) :
    windowHas k stats = false → windowSum k stats = 0 := by
  induction stats with
  | nil => intro _; rfl
  | cons row rest ih =>
    intro h
    rw [windowHas, List.any_cons, Bool.or_eq_false_iff] at h
    rw [windowSum, List.map_cons, List.sum_cons, rowNum_not_has k row h.1]
    rw [show (rest.map (rowNum k)).sum = windowSum k rest from rfl, ih h.2, zero_add]

theorem foldl_sumStep_alookup (row : Row) : ∀ (res : List (String × Rat)) (k : String),
    alookup (row.foldl sumStep res) k =
      if rowHasNum k row = true
      then some (((alookup res k).getD 0) + rowNum k row)
      else alookup res k := by
  induction row with
  | nil => intro res k; simp [rowHasNum, rowNum]
  | cons p rest ih =>
    intro res k
    obtain ⟨pk, pv⟩ := p
    cases pv with
    | other =>
      have hh : rowHasNum k ((pk, JsonVal.other) :: rest) = rowHasNum k rest := by
        simp [rowHasNum]
      have hn : rowNum k ((pk, JsonVal.other) :: rest) = rowNum k rest := by
        simp [rowNum, List.filterMap_cons]
      rw [List.foldl_cons, show sumStep res (pk, JsonVal.other) = res from rfl,
        ih res k, hh, hn]
    | num v =>
      have hn : rowNum k ((pk, JsonVal.num v) :: rest)
          = (if pk = k then v else 0) + rowNum k rest := by
        by_cases hk : pk = k
        · simp [rowNum, List.filterMap_cons, hk]
        · simp [rowNum, List.filterMap_cons, hk]
      by_cases hk : pk = k
      · subst hk
        have hh : rowHasNum pk ((pk, JsonVal.num v) :: rest) = true := by
          simp [rowHasNum]
        rw [List.foldl_cons,
          show sumStep res (pk, JsonVal.num v)
            = aset res pk (((alookup res pk).getD 0) + v) from rfl,
          ih _ pk, hh, hn]
        by_cases hr : rowHasNum pk rest = true
        · rw [if_pos hr, alookup_aset_self]
          simp [add_assoc]
        · rw [if_neg hr, alookup_aset_self,
            rowNum_not_has pk rest (Bool.eq_false_iff.2 hr)]
          simp
      · have hh : rowHasNum k ((pk, JsonVal.num v) :: rest) = rowHasNum k rest := by
          simp [rowHasNum, hk]
        rw [List.foldl_cons,
          show sumStep res (pk, JsonVal.num v)
            = aset res pk (((alookup res pk).getD 0) + v) from rfl,
          ih _ k, hh, hn, if_neg hk, alookup_aset_ne res pk k _ hk]
        simp

theorem foldl_rows_alookup (stats : List Row) : ∀ (res : List (String × Rat)) (k : String),
    alookup (stats.foldl (fun res stat => stat.foldl sumStep res) res) k =
      if windowHas k stats = true
      then some (((alookup res k).getD 0) + windowSum k stats)
      else alookup res k := by
  induction stats with
  | nil => intro res k; simp [windowHas, windowSum]
  | cons row rest ih =>
    intro res k
    have hsum : windowSum k (row :: rest) = rowNum k row + windowSum k rest := by
      rw [windowSum, List.map_cons, List.sum_cons]
      rfl
    rw [List.foldl_cons, ih (row.foldl sumStep res) k, foldl_sumStep_alookup row res k]
    by_cases h1 : rowHasNum k row = true
    · have hh : windowHas k (row :: rest) = true := by
        simp [windowHas, List.any_cons, h1]
      by_cases h2 : windowHas k rest = true
      · rw [if_pos h2, if_pos h1, if_pos hh, hsum]
        simp [add_assoc]
      · rw [if_neg h2, if_pos h1, if_pos hh, hsum,
          windowSum_not_has k rest (Bool.eq_false_iff.2 h2)]
        simp
    · have hh : windowHas k (row :: rest) = windowHas k rest := by
        simp [windowHas, List.any_cons, h1]
      rw [if_neg h1, hh, hsum, rowNum_not_has k row (Bool.eq_false_iff.2 h1), zero_add]

theorem alookup_avg_map (l : List (String × Rat)) (k : String) :
    alookup (l.map fun p => (p.1, round1 (p.2 / (RECENT_LENGTH : Rat)))) k
      = (alookup l k).map fun q => round1 (q / (RECENT_LENGTH : Rat)) := by
  induction l with
  | nil => simp [alookup]
  | cons p rest ih =>
    by_cases h : p.1 = k
    · simp [alookup, h]
    · simp [alookup, h, ih]

/-- C5: the recent average reads exactly the first RECENT_LENGTH rows of the
history, RECENT_LENGTH is fixed at five, and every produced value is the
window sum of its key divided by five rounded to one decimal, no matter how
many rows the history holds, missing rows contributing zero; an empty
window yields the empty, all-zero record, and a one-row window with a at
ten still divides by five, giving a at two. -/
theorem average_fixed_divisor (stats : List Row) (k : String) :
    (RECENT_LENGTH = 5)
  ∧ (alookup (average stats) k =
      if windowHas k (stats.take RECENT_LENGTH) = true
      then some (round1 (windowSum k (stats.take RECENT_LENGTH) / (RECENT_LENGTH : Rat)))
      else none)
  ∧ (average [] = [])
  ∧ (average [[("a", JsonVal.num 10)]] = [("a", 2)]) := by
  refine ⟨rfl, ?_, rfl, by norm_num [average, RECENT_LENGTH, aset, alookup, round1,
    sumStep]⟩
  show alookup ((((stats.take RECENT_LENGTH).foldl
      (fun res stat => stat.foldl sumStep res) []).map
      fun p => (p.1, round1 (p.2 / (RECENT_LENGTH : Rat)))) ) k = _
  rw [alookup_avg_map, foldl_rows_alookup (stats.take RECENT_LENGTH) [] k]
  by_cases h : windowHas k (stats.take RECENT_LENGTH) = true
  · rw [if_pos h, if_pos h]
    simp [alookup]
  · rw [if_neg h, if_neg h]
    simp [alookup]

/-- C6: a snapshot request for the already cached date changes nothing and
awaits the cached computation; a request for a different date starts
exactly one fresh computation; an immediately repeated request for the same
date starts none and awaits the very computation the first request started,
so two same-date requests issue the underlying historical queries once and
share one result. -/
theorem patch_cache_once (s : CacheState) (d : String) :
    ((patch d (patch d s).1).1 = (patch d s).1
      ∧ (patch d (patch d s).1).2 = (patch d s).2)
  ∧ (s.cachedDate ≠ some d → (patch d s).1.runs = s.runs + 1)
  ∧ ((patch d (patch d s).1).1.runs = (patch d s).1.runs)
  ∧ (s.cachedDate = some d → patch d s = (s, s.cachedComp)) := by
  have hhit : ∀ t : CacheState, t.cachedDate = some d → patch d t = (t, t.cachedComp) := by
    intro t h
    unfold patch
    rw [if_pos h]
  have hdate : (patch d s).1.cachedDate = some d := by
    unfold patch
    by_cases h : s.cachedDate = some d
    · rw [if_pos h]; exact h
    · rw [if_neg h]
  have hcomp : (patch d s).2 = (patch d s).1.cachedComp := by
    unfold patch
    split <;> rfl
  refine ⟨⟨?_, ?_⟩, ?_, ?_, fun h => hhit s h⟩
  · rw [hhit _ hdate]
  · rw [hhit _ hdate, hcomp]
  · intro h
    unfold patch
    rw [if_neg h]
  · rw [hhit _ hdate]

theorem patch_cache_once_witness :
    ((patch "2024/1/2" { cachedDate := some "2024/1/1", cachedComp := 1, runs := 1 }).1.runs
      = 2)
  ∧ (patch "2024/1/1" { cachedDate := some "2024/1/1", cachedComp := 1, runs := 1 }
      = ({ cachedDate := some "2024/1/1", cachedComp := 1, runs := 1 }, 1)) := by
  have h := patch_cache_once
    { cachedDate := some "2024/1/1", cachedComp := 1, runs := 1 } "2024/1/2"
  have h2 := patch_cache_once
    { cachedDate := some "2024/1/1", cachedComp := 1, runs := 1 } "2024/1/1"
  exact ⟨h.2.1 (by decide), h2.2.2.2 rfl⟩

/-- C9: a handle whose entity listing fails contributes nothing and blocks
nothing: the enumeration over all handles with the failing handle present
equals the enumeration without it, so the other handles are still processed
and the snapshot is still assembled from their results. -/
theorem bot_failure_isolated (pre post : List BotModel) (bad : BotModel) (env : GEnv)
    (st : GState) (h : bad.groupList = Except.error ()) :
    collectBots (pre ++ bad :: post) env st = collectBots (pre ++ post) env st := by
  unfold collectBots
  rw [List.foldl_append, List.foldl_append, List.foldl_cons]
  have hb : ∀ t : GState, (getGroupInfo bad env t).1 = t := by
    intro t
    unfold getGroupInfo
    rw [h]
  rw [hb]

theorem bot_failure_isolated_witness :
    collectBots [demoBotBad, demoBotOk] demoEnv demoGState
      = collectBots [demoBotOk] demoEnv demoGState :=
  bot_failure_isolated [] [demoBotOk] demoBotBad demoEnv demoGState rfl
